import Mathlib

/-
  Verification development for the course rerun / clone workflow and the
  mobile-API milestone gating and fake software-secure view of this
  repository fragment.  The repository fragment under src/ contains only
  the test modules; the implementations they exercise (the rerun
  coordinator task, the rerun state store, the course store facade, the
  milestone-gating decorator and the fake software-secure view) are not
  part of the fragment, so they are modelled here from the specification,
  definition by definition.
-/

namespace EdxRerun

/-- A course identifier: organization, course number, run
(spec section 3: "opaque structured identifiers"). -/
structure CourseId where
  org : String
  course : String
  run : String
deriving DecidableEq, Repr

/-- An asset bound to a course: a display name and a binary payload
(spec section 4.2: "binary content addressed by display name within the course"). -/
structure Asset where
  displayname : String
  payload : List Nat
deriving DecidableEq, Repr

/-- A content item of a course, stored flat with child references,
as both document-oriented and versioned stores keep blocks. -/
structure Item where
  location : String
  category : String
  itemDisplayName : String
  data : String
  children : List String
deriving DecidableEq, Repr

/-- A course's content: the tree of items (flat block list with child
references) plus bound assets and the course display name. -/
structure Course where
  items : List Item
  assets : List Asset
  courseDisplayName : String
deriving DecidableEq, Repr

/-- The lifecycle states of a rerun attempt (spec section 3). -/
inductive AState where
  | PENDING
  | IN_PROGRESS
  | SUCCEEDED
  | FAILED
deriving DecidableEq, Repr

/-- Modelled from the spec: one persisted RerunAttempt record of the
Rerun State Store (spec section 3), which is absent from src. -/
structure Attempt where
  source_course_id : CourseId
  destination_course_id : CourseId
  user : Nat
  display_name : String
  state : AState
deriving DecidableEq, Repr

/-- Percent-encoding used by the asset store for asset keys: reserved
characters of a display name are escaped when the name is used as a
storage key. -/
def encodeChar (c : Char) : List Char :=
  if c = '%' then ['%', '2', '5']
  else if c = ' ' then ['%', '2', '0']
  else [c]

/-- Percent-encode a display name into a storage key. -/
def percentEncode (s : String) : String :=
  ⟨s.data.flatMap encodeChar⟩

/-- Inverse of the percent-encoding on character lists. -/
def decodeChars : List Char → List Char
  | [] => []
  | '%' :: '2' :: '5' :: rest => '%' :: decodeChars rest
  | '%' :: '2' :: '0' :: rest => ' ' :: decodeChars rest
  | c :: rest => c :: decodeChars rest

/-- Percent-decode a storage key back into a display name. -/
def percentDecode (s : String) : String :=
  ⟨decodeChars s.data⟩

/-- The two course storage backends (spec section 4.2):
the legacy document store and the versioned split store. -/
inductive Backend where
  | legacy
  | split
deriving DecidableEq, Repr

/-- Modelled from the spec: the legacy document store's representation of
a course (flat documents plus an asset bucket keyed by percent-encoded
display name).  The backend itself is absent from src. -/
structure MongoCourse where
  docs : List Item
  assetDocs : List (String × List Nat)
  docDisplayName : String
deriving DecidableEq, Repr

/-- Modelled from the spec: the versioned split store's representation of
a course (a structure version plus flat blocks and an asset bucket keyed
by percent-encoded display name).  The backend itself is absent from src. -/
structure SplitCourse where
  version : Nat
  blocks : List Item
  assetKeys : List (String × List Nat)
  structureDisplayName : String
deriving DecidableEq, Repr

/-- The stored representation of a course in a given backend. -/
def Stored : Backend → Type
  | .legacy => MongoCourse
  | .split => SplitCourse

/-- Store a list of assets into an asset bucket, keying each asset by
its percent-encoded display name. -/
def storeAssets (l : List Asset) : List (String × List Nat) :=
  l.map (fun a => (percentEncode a.displayname, a.payload))

/-- Read a list of assets back out of an asset bucket, recovering each
display name by percent-decoding its storage key. -/
def loadAssets (m : List (String × List Nat)) : List Asset :=
  m.map (fun p => ⟨percentDecode p.1, p.2⟩)

/-- Modelled from the spec: importing a course into a backend
(spec section 4.2, the Course Store Facade, absent from src). -/
def importCourse : (b : Backend) → Course → Stored b
  | .legacy, c => (⟨c.items, storeAssets c.assets, c.courseDisplayName⟩ : MongoCourse)
  | .split, c => (⟨1, c.items, storeAssets c.assets, c.courseDisplayName⟩ : SplitCourse)

/-- Modelled from the spec: exporting a course out of a backend
(spec section 4.2, the Course Store Facade, absent from src). -/
def exportCourse : (b : Backend) → Stored b → Course
  | .legacy, s => ⟨s.docs, loadAssets s.assetDocs, s.docDisplayName⟩
  | .split, s => ⟨s.blocks, loadAssets s.assetKeys, s.structureDisplayName⟩

/-- Modelled from the spec: the facade's cross-backend clone of course
content (spec section 4.2), deep-copying the content tree and all bound
assets from a course stored in backend a into backend b. -/
def clone_content (a b : Backend) (s : Stored a) : Stored b :=
  importCourse b (exportCourse a s)

/-- Modelled from the spec: the observable state of the rerun workflow,
combining the Rerun State Store (the attempt records), the course store
(destination ids mapped to course content) and the access-control store
(author-access grants), all absent from src. -/
structure SysState where
  attempts : List Attempt
  courses : List (CourseId × Course)
  access : List (Nat × CourseId)
deriving DecidableEq, Repr

/-- Look a course up by id in the course store. -/
def lookupCourse (courses : List (CourseId × Course)) (cid : CourseId) : Option Course :=
  (courses.find? (fun p => decide (p.1 = cid))).map Prod.snd

/-- Modelled from the spec: `get_course` of the Course Store Facade,
returning nothing when the id does not resolve (spec section 4.1 step 4). -/
def get_course (st : SysState) (cid : CourseId) : Option Course :=
  lookupCourse st.courses cid

/-- Remove every course stored under the given id. -/
def removeCourse (courses : List (CourseId × Course)) (cid : CourseId) :
    List (CourseId × Course) :=
  courses.filter (fun p => decide (p.1 ≠ cid))

/-- Modelled from the spec: `initiated` of the state store interface
(spec section 6), creating a PENDING record for the requested rerun. -/
def initiated (st : SysState) (src dst : CourseId) (user : Nat) (name : String) :
    SysState :=
  { st with attempts := st.attempts ++ [⟨src, dst, user, name, .PENDING⟩] }

/-- Modelled from the spec: `find_first` of the state store interface
(spec section 6), querying the latest record for a destination id,
optionally filtered by state. -/
def find_first (st : SysState) (dst : CourseId) (s : Option AState) : Option Attempt :=
  st.attempts.reverse.find? (fun a =>
    decide (a.destination_course_id = dst) &&
      match s with
      | none => true
      | some t => decide (a.state = t))

/-- Modelled from the spec: `grant_author_access` of the access control
interface (spec section 6). -/
def grant_author_access (access : List (Nat × CourseId)) (user : Nat) (cid : CourseId) :
    List (Nat × CourseId) :=
  access ++ [(user, cid)]

/-- Modelled from the spec: `has_course_author_access` of the access
control interface (spec section 6). -/
def has_course_author_access (st : SysState) (user : Nat) (cid : CourseId) : Bool :=
  st.access.any (fun p => decide (p.1 = user) && decide (p.2 = cid))

/-- Update the state of the attempt record at a given position. -/
def setState : List Attempt → Nat → AState → List Attempt
  | [], _, _ => []
  | a :: rest, 0, s => { a with state := s } :: rest
  | a :: rest, n + 1, s => a :: setState rest n s

/-- Whether some attempt record other than the one at position `aid`
targets `dst` and is not FAILED (the duplicate-destination check of
spec section 4.1 step 1, with "does not match this exact request" read
as "is not this request's own record"). -/
def hasOtherLiveAttempt (l : List Attempt) (aid : Nat) (dst : CourseId) : Bool :=
  (List.range l.length).any (fun j =>
    decide (j ≠ aid) &&
      match l[j]? with
      | some a => decide (a.destination_course_id = dst ∧ a.state ≠ .FAILED)
      | none => false)

/-- Apply the optional field overrides (a display-name override) to a
cloned course (spec section 4.1 step 2). -/
def applyFields (fields : Option String) (c : Course) : Course :=
  match fields with
  | none => c
  | some name => { c with courseDisplayName := name }

/-- Modelled from the spec: the facade clone operation as invoked by the
coordinator (spec section 4.2), on the abstract course store.  It fails
with a backend failure when one is injected (modelling a storage write
failure mid-clone), with NotFound when the source id does not resolve,
and with AlreadyExists when the destination id already resolves; on
success it deep-copies the source content through the destination
backend's representation. -/
def cloneOp (courses : List (CourseId × Course)) (ba bb : Backend)
    (srcId dstId : CourseId) (inject : Option String) : Except String Course :=
  match inject with
  | some detail => .error detail
  | none =>
    match lookupCourse courses srcId with
    | none => .error "source course not found"
    | some c =>
      if (lookupCourse courses dstId).isSome then
        .error "destination course already exists"
      else
        .ok (exportCourse bb (clone_content ba bb (importCourse ba c)))

/-- Modelled from the spec: the rerun coordinator task
(`contentstore.tasks.rerun_course`, spec section 4.1), absent from src.
`aid` is the position of this request's own PENDING attempt record.
It returns the updated system state and the outcome string; every error
raised by the clone is caught here and reported as an outcome string
(spec section 7), never propagated. -/
def rerun_course (st : SysState) (aid : Nat) (ba bb : Backend)
    (fields : Option String) (inject : Option String) : SysState × String :=
  match st.attempts[aid]? with
  | none => (st, "exception: unknown rerun attempt")
  | some att =>
    let src := att.source_course_id
    let dst := att.destination_course_id
    if hasOtherLiveAttempt st.attempts aid dst then
      ({ st with attempts := setState st.attempts aid .FAILED }, "duplicate course")
    else
      match cloneOp st.courses ba bb src dst inject with
      | .error detail =>
        ({ st with
            attempts := setState st.attempts aid .FAILED,
            courses := removeCourse st.courses dst },
          "exception: " ++ detail)
      | .ok c =>
        ({ st with
            attempts := setState st.attempts aid .SUCCEEDED,
            courses := st.courses ++ [(dst, applyFields fields c)],
            access := grant_author_access st.access att.user dst },
          "succeeded")

/-- Whether any attempt record targeting dst is not FAILED. -/
def hasLiveAttempt (l : List Attempt) (dst : CourseId) : Bool :=
  l.any (fun a => decide (a.destination_course_id = dst ∧ a.state ≠ .FAILED))

/-- Modelled from the spec: one step of the rerun workflow (spec
sections 4.1 and 5).  A caller records intent for a destination only
when no live attempt already targets it (the destination is treated as
reserved once intent is recorded), and the coordinator executes a rerun
for its own PENDING attempt record. -/
inductive Step : SysState → SysState → Prop where
  | record : ∀ st src dst user name,
      hasLiveAttempt st.attempts dst = false →
      Step st (initiated st src dst user name)
  | exec : ∀ st aid ba bb fields inject att,
      st.attempts[aid]? = some att →
      att.state = .PENDING →
      Step st (rerun_course st aid ba bb fields inject).1

/-- The states reachable by the rerun workflow, starting from a state
with no attempt records, arbitrary pre-existing courses and no
workflow-granted access. -/
inductive Reachable : SysState → Prop where
  | start : ∀ courses : List (CourseId × Course), Reachable ⟨[], courses, []⟩
  | step : ∀ st st', Reachable st → Step st st' → Reachable st'

/-- At most one non-FAILED attempt record targets any destination id. -/
def AtMostOneLive (st : SysState) : Prop :=
  ∀ (i j : Nat) (a b : Attempt), i ≠ j →
    st.attempts[i]? = some a → st.attempts[j]? = some b →
    a.destination_course_id = b.destination_course_id →
    a.state = .FAILED ∨ b.state = .FAILED

/-- What a single workflow step may do to the attempt records: records
are never deleted, an existing record changes at most its state and only
from PENDING to SUCCEEDED or FAILED, and a record created by the step is
created in PENDING state. -/
def StepFacts (st st' : SysState) : Prop :=
  st.attempts.length ≤ st'.attempts.length ∧
  (∀ (j : Nat) (a : Attempt), st.attempts[j]? = some a →
    st'.attempts[j]? = some a ∨
      (a.state = .PENDING ∧
        (st'.attempts[j]? = some { a with state := .SUCCEEDED } ∨
         st'.attempts[j]? = some { a with state := .FAILED }))) ∧
  (∀ (j : Nat) (a : Attempt), st.attempts.length ≤ j →
    st'.attempts[j]? = some a → a.state = .PENDING)

/-- A concrete source course id for the closed witness instances. -/
def srcIdEx : CourseId := ⟨"edX", "toy", "2012_Fall"⟩

/-- A concrete destination course id for the closed witness instances. -/
def dstIdEx : CourseId := ⟨"edx3", "split3", "rerun_test"⟩

/-- A concrete course with a percent sign in an asset display name. -/
def courseEx : Course :=
  ⟨[⟨"root", "course", "Toy Course", "toy data", []⟩],
   [⟨"subs_Introduction%20To%20New.srt.sjson", [1, 2, 3]⟩,
    ⟨"subs_vhas5o_fW-8.srt.sjson", [4, 5]⟩],
   "Toy Course"⟩

/-- A concrete PENDING rerun attempt record. -/
def attemptEx : Attempt := ⟨srcIdEx, dstIdEx, 7, "rerun", .PENDING⟩

/-- A concrete SUCCEEDED attempt record targeting the same destination. -/
def attemptSucceededEx : Attempt := ⟨srcIdEx, dstIdEx, 7, "rerun", .SUCCEEDED⟩

/-- A concrete FAILED attempt record targeting the same destination. -/
def attemptFailedEx : Attempt := ⟨srcIdEx, dstIdEx, 7, "rerun", .FAILED⟩

/-- A concrete workflow state with one PENDING attempt. -/
def stEx : SysState := ⟨[attemptEx], [(srcIdEx, courseEx)], []⟩

/-- A concrete workflow state where a SUCCEEDED attempt already targets
the destination of the PENDING attempt. -/
def stDupEx : SysState :=
  ⟨[attemptSucceededEx, attemptEx], [(srcIdEx, courseEx)], []⟩

/-- A concrete workflow state where only a FAILED attempt targets the
destination of the PENDING attempt. -/
def stFailedEx : SysState :=
  ⟨[attemptFailedEx, attemptEx], [(srcIdEx, courseEx)], []⟩

end EdxRerun

namespace MobileApi

/-- The feature flags governing milestone gating of mobile API
endpoints, as patched by the test mixin. -/
structure MilestoneFlags where
  milestones_app : Bool
  enable_prerequisite_courses : Bool
  entrance_exams : Bool
deriving DecidableEq, Repr

/-- The requesting user of a mobile API endpoint. -/
structure MobileUser where
  userId : Nat
  is_staff : Bool
deriving DecidableEq, Repr

/-- The milestone-relevant situation of the requesting user in the
requested course: prerequisite courses attached to the course, the
prerequisite courses the user has fulfilled, and the entrance exam and
whether the user has passed it. -/
structure GateContext where
  flags : MilestoneFlags
  prereq_courses : List Nat
  fulfilled_prereqs : List Nat
  entrance_exam_enabled : Bool
  entrance_exam_passed : Bool
deriving DecidableEq, Repr

/-- An HTTP response: status code and response data as field pairs. -/
structure HttpResponse where
  status_code : Nat
  data : List (String × String)
deriving DecidableEq, Repr

/-- The body returned with a milestone-blocked response. -/
def milestone_message : List (String × String) :=
  [("developer_message",
    "Cannot access content with unfulfilled pre-requisites or unpassed entrance exam.")]

/-- Whether the user has an unfulfilled prerequisite course, under the
prerequisite feature flags. -/
def unfulfilledPrereq (ctx : GateContext) : Bool :=
  ctx.flags.enable_prerequisite_courses && ctx.flags.milestones_app &&
    ctx.prereq_courses.any (fun p => !(ctx.fulfilled_prereqs.contains p))

/-- Whether the user has an unpassed entrance exam, under the entrance
exam feature flags. -/
def unpassedExam (ctx : GateContext) : Bool :=
  ctx.flags.entrance_exams && ctx.flags.milestones_app &&
    ctx.entrance_exam_enabled && !ctx.entrance_exam_passed

/-- Modelled from the spec: the milestone gating that the
mobile_course_access decorator applies to a gated mobile API endpoint.
The decorator itself is absent from src; its behavior is taken from the
assertions of MobileAPIMilestonesMixin in
src/lms/djangoapps/mobile_api/testutils.py: a non-staff user with an
unfulfilled prerequisite course or an unpassed entrance exam receives
status 204 with the milestone message, anyone else receives the
endpoint's normal response. -/
def mobile_course_access (ctx : GateContext) (u : MobileUser)
    (normal : HttpResponse) : HttpResponse :=
  if !u.is_staff && (unfulfilledPrereq ctx || unpassedExam ctx) then
    ⟨204, milestone_message⟩
  else
    normal

/-- A concrete gating context: all milestone flags on, one prerequisite
course that is not fulfilled, no entrance exam. -/
def ctxEx : GateContext := ⟨⟨true, true, true⟩, [5], [], false, false⟩

/-- A concrete non-staff mobile user. -/
def mobileUserEx : MobileUser := ⟨3, false⟩

/-- A concrete staff mobile user. -/
def mobileStaffEx : MobileUser := ⟨4, true⟩

/-- A concrete normal endpoint response. -/
def normalEx : HttpResponse := ⟨200, [("course_id", "a")]⟩

end MobileApi

namespace VerifyStudent

/-- One photo-verification attempt of a user, identified by its receipt
id. -/
structure VerificationAttempt where
  receipt_id : String
deriving DecidableEq, Repr

/-- A raw HTTP response: status code and rendered body. -/
structure WebResponse where
  status_code : Nat
  content : String
deriving DecidableEq, Repr

/-- Substring containment on strings. -/
def containsStr (hay needle : String) : Prop :=
  ∃ p q : String, hay = p ++ needle ++ q

/-- Modelled from the spec: the fake software-secure response view of
the identity-verification app, absent from src; its behavior is taken
from the assertions of SoftwareSecureFakeViewTest in
src/lms/djangoapps/verify_student/tests/test_fake_software_secure.py.
With the ENABLE_SOFTWARE_SECURE_FAKE feature off the view is not
routed (404); an unauthenticated GET is redirected to login (302); a
logged-in user with a photo-verification attempt receives a 200 page
rendering the most recent attempt's EdX-ID and the results_callback
url. -/
def software_secure_fake_response (featureEnabled loggedIn : Bool)
    (attempts : List VerificationAttempt) : WebResponse :=
  if !featureEnabled then
    ⟨404, "not found"⟩
  else if !loggedIn then
    ⟨302, "redirect to login"⟩
  else
    match attempts.head? with
    | none => ⟨200, "no verification attempt found"⟩
    | some a =>
      ⟨200, "EdX-ID" ++ (": " ++ a.receipt_id ++ " ") ++ "results_callback" ++
        (": http://testserver/verify_student/results_callback")⟩

/-- A concrete list of photo-verification attempts. -/
def attemptListEx : List VerificationAttempt := [⟨"receipt-1"⟩]

end VerifyStudent

namespace EdxRerun

theorem decodeChars_encodeChar (c : Char) (rest : List Char) :
    decodeChars (encodeChar c ++ rest) = c :: decodeChars rest := by
  by_cases h1 : c = '%'
  · simp [encodeChar, h1, decodeChars]
  · by_cases h2 : c = ' '
    · simp [encodeChar, h1, h2, decodeChars]
    · simp only [encodeChar, if_neg h1, if_neg h2, List.singleton_append]
      rw [decodeChars.eq_def]
      split
      · simp_all
      · simp_all
      · simp_all
      · simp_all

theorem decodeChars_flatMap (l : List Char) :
    decodeChars (l.flatMap encodeChar) = l := by
  induction l with
  | nil => rfl
  | cons c rest ih =>
    rw [List.flatMap_cons, decodeChars_encodeChar, ih]

/-- Percent-decoding a percent-encoded display name recovers the name
exactly, also for names that themselves contain reserved characters. -/
theorem percentDecode_percentEncode (s : String) :
    percentDecode (percentEncode s) = s := by
  cases s with
  | mk data => simp [percentEncode, percentDecode, decodeChars_flatMap]

theorem loadAssets_storeAssets (l : List Asset) :
    loadAssets (storeAssets l) = l := by
  induction l with
  | nil => rfl
  | cons a rest ih =>
    simp [loadAssets, storeAssets, percentDecode_percentEncode] at ih ⊢
    exact ih

theorem exportCourse_importCourse (b : Backend) (c : Course) :
    exportCourse b (importCourse b c) = c := by
  cases b <;> cases c <;>
    simp [importCourse, exportCourse, loadAssets_storeAssets]

theorem length_setState (l : List Attempt) (i : Nat) (s : AState) :
    (setState l i s).length = l.length := by
  induction l generalizing i with
  | nil => rfl
  | cons a rest ih =>
    cases i with
    | zero => simp [setState]
    | succ n => simp [setState, ih]

theorem setState_getElem_self (l : List Attempt) (i : Nat) (s : AState) :
    (setState l i s)[i]? = (l[i]?).map (fun a => { a with state := s }) := by
  induction l generalizing i with
  | nil => cases i <;> rfl
  | cons a rest ih =>
    cases i with
    | zero => simp [setState]
    | succ n => simpa [setState] using ih n

theorem setState_getElem_other (l : List Attempt) (i j : Nat) (s : AState)
    (h : j ≠ i) : (setState l i s)[j]? = l[j]? := by
  induction l generalizing i j with
  | nil => cases i <;> rfl
  | cons a rest ih =>
    cases i with
    | zero =>
      cases j with
      | zero => exact absurd rfl h
      | succ m => simp [setState]
    | succ n =>
      cases j with
      | zero => simp [setState]
      | succ m =>
        simp only [setState, List.getElem?_cons_succ]
        exact ih n m (fun hh => h (by rw [hh]))

theorem hasOtherLiveAttempt_iff (l : List Attempt) (aid : Nat) (dst : CourseId) :
    hasOtherLiveAttempt l aid dst = true ↔
      ∃ j a, j ≠ aid ∧ l[j]? = some a ∧
        a.destination_course_id = dst ∧ a.state ≠ .FAILED := by
  unfold hasOtherLiveAttempt
  rw [List.any_eq_true]
  constructor
  · rintro ⟨j, _, hp⟩
    rw [Bool.and_eq_true, decide_eq_true_iff] at hp
    obtain ⟨hne, hrest⟩ := hp
    cases hl : l[j]? with
    | none => rw [hl] at hrest; simp at hrest
    | some a =>
      rw [hl] at hrest
      rw [decide_eq_true_iff] at hrest
      exact ⟨j, a, hne, hl, hrest⟩
  · rintro ⟨j, a, hne, hl, hd, hs⟩
    refine ⟨j, ?_, ?_⟩
    · rw [List.mem_range]
      exact (List.getElem?_eq_some.mp hl).1
    · rw [hl]
      simp [hne, hd, hs]

theorem find_first_isSome_of_mem (st : SysState) (dst : CourseId) (t : AState)
    (a : Attempt) (ha : a ∈ st.attempts)
    (hd : a.destination_course_id = dst) (hs : a.state = t) :
    (find_first st dst (some t)).isSome = true := by
  rw [find_first, List.find?_isSome]
  exact ⟨a, List.mem_reverse.mpr ha, by simp [hd, hs]⟩

theorem lookupCourse_removeCourse (courses : List (CourseId × Course))
    (cid : CourseId) : lookupCourse (removeCourse courses cid) cid = none := by
  rw [lookupCourse, removeCourse]
  have h : (courses.filter (fun p => decide (p.1 ≠ cid))).find?
      (fun p => decide (p.1 = cid)) = none := by
    rw [List.find?_eq_none]
    intro p hp
    have := (List.mem_filter.mp hp).2
    simp only [decide_eq_true_iff] at this
    simp [this]
  rw [h]
  rfl

/-- C1: when the clone operation raises a failure, the rerun coordinator
afterwards leaves the destination course id unresolvable (`get_course`
returns nothing), puts this destination's RerunAttempt record into FAILED
state, and returns an outcome string that is exactly the prefix
"exception: " followed by the failure detail. -/
theorem rerun_clone_failure_cleanup
    (st : SysState) (aid : Nat) (ba bb : Backend) (fields inject : Option String)
    (att : Attempt) (detail : String)
    (hatt : st.attempts[aid]? = some att)
    (hdup : hasOtherLiveAttempt st.attempts aid att.destination_course_id = false)
    (hclone : cloneOp st.courses ba bb att.source_course_id
        att.destination_course_id inject = .error detail) :
    get_course (rerun_course st aid ba bb fields inject).1
        att.destination_course_id = none ∧
    (rerun_course st aid ba bb fields inject).1.attempts[aid]? =
        some { att with state := .FAILED } ∧
    (find_first (rerun_course st aid ba bb fields inject).1
        att.destination_course_id (some .FAILED)).isSome = true ∧
    (rerun_course st aid ba bb fields inject).2 = "exception: " ++ detail := by
  have hrun : rerun_course st aid ba bb fields inject =
      ({ st with
          attempts := setState st.attempts aid .FAILED,
          courses := removeCourse st.courses att.destination_course_id },
        "exception: " ++ detail) := by
    rw [rerun_course, hatt]
    simp only [hdup, Bool.false_eq_true, if_false, hclone]
  rw [hrun]
  refine ⟨?_, ?_, ?_, rfl⟩
  · exact lookupCourse_removeCourse st.courses att.destination_course_id
  · rw [setState_getElem_self, hatt]
    rfl
  · refine find_first_isSome_of_mem _ _ _ { att with state := .FAILED } ?_ rfl rfl
    have : (setState st.attempts aid .FAILED)[aid]? =
        some { att with state := .FAILED } := by
      rw [setState_getElem_self, hatt]
      rfl
    exact List.getElem?_mem this

/-- C2: when another non-FAILED attempt already targets the same
destination, the rerun coordinator returns the outcome "duplicate
course", leaves the course store untouched, and leaves a FAILED
RerunAttempt record for that destination. -/
theorem rerun_duplicate_destination
    (st : SysState) (aid j : Nat) (ba bb : Backend) (fields inject : Option String)
    (att attJ : Attempt)
    (hatt : st.attempts[aid]? = some att)
    (hj : st.attempts[j]? = some attJ)
    (hne : j ≠ aid)
    (hdst : attJ.destination_course_id = att.destination_course_id)
    (hlive : attJ.state ≠ .FAILED) :
    (rerun_course st aid ba bb fields inject).2 = "duplicate course" ∧
    (rerun_course st aid ba bb fields inject).1.courses = st.courses ∧
    (rerun_course st aid ba bb fields inject).1.attempts[aid]? =
        some { att with state := .FAILED } ∧
    (find_first (rerun_course st aid ba bb fields inject).1
        att.destination_course_id (some .FAILED)).isSome = true := by
  have hdup : hasOtherLiveAttempt st.attempts aid att.destination_course_id = true :=
    (hasOtherLiveAttempt_iff _ _ _).mpr ⟨j, attJ, hne, hj, hdst, hlive⟩
  have hrun : rerun_course st aid ba bb fields inject =
      ({ st with attempts := setState st.attempts aid .FAILED }, "duplicate course") := by
    rw [rerun_course, hatt]
    simp only [hdup, if_true]
  rw [hrun]
  refine ⟨rfl, rfl, ?_, ?_⟩
  · rw [setState_getElem_self, hatt]
    rfl
  · refine find_first_isSome_of_mem _ _ _ { att with state := .FAILED } ?_ rfl rfl
    have : (setState st.attempts aid .FAILED)[aid]? =
        some { att with state := .FAILED } := by
      rw [setState_getElem_self, hatt]
      rfl
    exact List.getElem?_mem this

theorem has_access_after_grant (st : SysState) (user : Nat) (cid : CourseId) :
    has_course_author_access
      { st with access := grant_author_access st.access user cid } user cid = true := by
  rw [has_course_author_access, grant_author_access, List.any_eq_true]
  exact ⟨(user, cid), List.mem_append.mpr (Or.inr (List.mem_singleton.mpr rfl)), by simp⟩

/-- C3: when the clone operation completes successfully, the rerun
coordinator grants the initiating user course-author access on the
destination course id, puts the RerunAttempt record into SUCCEEDED
state, and returns the outcome string "succeeded". -/
theorem rerun_success
    (st : SysState) (aid : Nat) (ba bb : Backend) (fields inject : Option String)
    (att : Attempt) (c : Course)
    (hatt : st.attempts[aid]? = some att)
    (hdup : hasOtherLiveAttempt st.attempts aid att.destination_course_id = false)
    (hclone : cloneOp st.courses ba bb att.source_course_id
        att.destination_course_id inject = .ok c) :
    (rerun_course st aid ba bb fields inject).2 = "succeeded" ∧
    has_course_author_access (rerun_course st aid ba bb fields inject).1
        att.user att.destination_course_id = true ∧
    (rerun_course st aid ba bb fields inject).1.attempts[aid]? =
        some { att with state := .SUCCEEDED } ∧
    (find_first (rerun_course st aid ba bb fields inject).1
        att.destination_course_id (some .SUCCEEDED)).isSome = true := by
  have hrun : rerun_course st aid ba bb fields inject =
      ({ st with
          attempts := setState st.attempts aid .SUCCEEDED,
          courses := st.courses ++ [(att.destination_course_id, applyFields fields c)],
          access := grant_author_access st.access att.user att.destination_course_id },
        "succeeded") := by
    rw [rerun_course, hatt]
    simp only [hdup, Bool.false_eq_true, if_false, hclone]
  rw [hrun]
  refine ⟨rfl, ?_, ?_, ?_⟩
  · rw [has_course_author_access, grant_author_access, List.any_eq_true]
    exact ⟨(att.user, att.destination_course_id),
      List.mem_append.mpr (Or.inr (List.mem_singleton.mpr rfl)), by simp⟩
  · rw [setState_getElem_self, hatt]
    rfl
  · refine find_first_isSome_of_mem _ _ _ { att with state := .SUCCEEDED } ?_ rfl rfl
    have : (setState st.attempts aid .SUCCEEDED)[aid]? =
        some { att with state := .SUCCEEDED } := by
      rw [setState_getElem_self, hatt]
      rfl
    exact List.getElem?_mem this

/-- C4: cloning a course from any backend to any backend (legacy or
split, in either role) yields a destination whose content tree and asset
set are structurally equal to the source's: the same items, and assets
with the same display names and the same payloads. -/
theorem clone_cross_backend_structurally_equal (a b : Backend) (c : Course) :
    (exportCourse b (clone_content a b (importCourse a c))).items = c.items ∧
    (exportCourse b (clone_content a b (importCourse a c))).assets.map
        Asset.displayname = c.assets.map Asset.displayname ∧
    (exportCourse b (clone_content a b (importCourse a c))).assets.map
        Asset.payload = c.assets.map Asset.payload := by
  have h : exportCourse b (clone_content a b (importCourse a c)) = c := by
    rw [clone_content, exportCourse_importCourse, exportCourse_importCourse]
  rw [h]
  exact ⟨rfl, rfl, rfl⟩

theorem applyFields_assets (fields : Option String) (c : Course) :
    (applyFields fields c).assets = c.assets := by
  cases fields <;> rfl

theorem lookupCourse_append_self (courses : List (CourseId × Course))
    (cid : CourseId) (c : Course) (h : lookupCourse courses cid = none) :
    lookupCourse (courses ++ [(cid, c)]) cid = some c := by
  rw [lookupCourse, List.find?_append]
  have h1 : courses.find? (fun p => decide (p.1 = cid)) = none := by
    rw [lookupCourse] at h
    cases hf : courses.find? (fun p => decide (p.1 = cid)) with
    | none => rfl
    | some p => rw [hf] at h; simp at h
  rw [h1]
  simp [List.find?]

/-- C5: rerunning a course whose assets carry display names with
reserved URL characters such as a percent sign succeeds, and the
destination course's assets carry exactly the same display names and
the same count as the source's, with no name corruption. -/
theorem rerun_preserves_percent_asset_names
    (st : SysState) (aid : Nat) (ba bb : Backend) (fields : Option String)
    (att : Attempt) (c : Course)
    (hatt : st.attempts[aid]? = some att)
    (hdup : hasOtherLiveAttempt st.attempts aid att.destination_course_id = false)
    (hsrc : lookupCourse st.courses att.source_course_id = some c)
    (hdst : lookupCourse st.courses att.destination_course_id = none)
    (_hpercent : ∃ a ∈ c.assets, '%' ∈ a.displayname.data) :
    (rerun_course st aid ba bb fields none).2 = "succeeded" ∧
    ∃ d, get_course (rerun_course st aid ba bb fields none).1
          att.destination_course_id = some d ∧
        d.assets.map Asset.displayname = c.assets.map Asset.displayname ∧
        d.assets.length = c.assets.length := by
  have hroundtrip : exportCourse bb (clone_content ba bb (importCourse ba c)) = c := by
    rw [clone_content, exportCourse_importCourse, exportCourse_importCourse]
  have hclone : cloneOp st.courses ba bb att.source_course_id
      att.destination_course_id none =
      .ok (exportCourse bb (clone_content ba bb (importCourse ba c))) := by
    rw [cloneOp, hsrc]
    simp only [hdst, Option.isSome_none, Bool.false_eq_true, if_false]
  have hrun : rerun_course st aid ba bb fields none =
      ({ st with
          attempts := setState st.attempts aid .SUCCEEDED,
          courses := st.courses ++
            [(att.destination_course_id,
              applyFields fields (exportCourse bb (clone_content ba bb (importCourse ba c))))],
          access := grant_author_access st.access att.user att.destination_course_id },
        "succeeded") := by
    rw [rerun_course, hatt]
    simp only [hdup, Bool.false_eq_true, if_false, hclone]
  rw [hrun]
  refine ⟨rfl, applyFields fields c, ?_, ?_, ?_⟩
  · rw [hroundtrip]
    exact lookupCourse_append_self st.courses att.destination_course_id
      (applyFields fields c) hdst
  · rw [applyFields_assets]
  · rw [applyFields_assets]

theorem exception_ne_duplicate (d : String) :
    "exception: " ++ d ≠ "duplicate course" := by
  intro h
  have h2 : ("exception: " ++ d).data = "duplicate course".data := by rw [h]
  rw [String.data_append] at h2
  have h3 : 'e' :: ("xception: ".data ++ d.data) = 'd' :: "uplicate course".data := h2
  exact absurd (List.cons.inj h3).1 (by decide)

/-- C6: when every attempt record targeting the destination of this
request, other than the request's own record, is FAILED, the rerun is
accepted as a fresh attempt (its outcome is not "duplicate course"),
and when the clone then completes it finishes with outcome
"succeeded". -/
theorem rerun_fresh_after_failed
    (st : SysState) (aid : Nat) (ba bb : Backend) (fields inject : Option String)
    (att : Attempt)
    (hatt : st.attempts[aid]? = some att)
    (hfailed : ∀ j a, j ≠ aid → st.attempts[j]? = some a →
        a.destination_course_id = att.destination_course_id → a.state = .FAILED) :
    (rerun_course st aid ba bb fields inject).2 ≠ "duplicate course" ∧
    (∀ c, cloneOp st.courses ba bb att.source_course_id
          att.destination_course_id inject = .ok c →
        (rerun_course st aid ba bb fields inject).2 = "succeeded") := by
  have hdup : hasOtherLiveAttempt st.attempts aid att.destination_course_id = false := by
    cases hb : hasOtherLiveAttempt st.attempts aid att.destination_course_id with
    | false => rfl
    | true =>
      obtain ⟨j, a, hne, hl, hd, hs⟩ := (hasOtherLiveAttempt_iff _ _ _).mp hb
      exact absurd (hfailed j a hne hl hd) hs
  constructor
  · rw [rerun_course, hatt]
    simp only [hdup, Bool.false_eq_true, if_false]
    cases hc : cloneOp st.courses ba bb att.source_course_id
        att.destination_course_id inject with
    | error detail =>
      simp only
      exact exception_ne_duplicate detail
    | ok c =>
      simp only
      intro h
      have h2 : ("succeeded").data = ("duplicate course").data := by rw [h]
      exact absurd h2 (by decide)
  · intro c hc
    rw [rerun_course, hatt]
    simp only [hdup, Bool.false_eq_true, if_false, hc]

/-- C7: the rerun coordinator is a total function whose outcome is
always one of exactly three shapes of plain strings - "succeeded",
"duplicate course", or "exception: " followed by a failure detail - so
no failure raised during the clone ever propagates to the caller as a
raised fault. -/
theorem rerun_outcome_total (st : SysState) (aid : Nat) (ba bb : Backend)
    (fields inject : Option String) :
    (rerun_course st aid ba bb fields inject).2 = "succeeded" ∨
    (rerun_course st aid ba bb fields inject).2 = "duplicate course" ∨
    ∃ d, (rerun_course st aid ba bb fields inject).2 = "exception: " ++ d := by
  rw [rerun_course]
  cases hatt : st.attempts[aid]? with
  | none => exact Or.inr (Or.inr ⟨"unknown rerun attempt", rfl⟩)
  | some att =>
    simp only
    cases hdup : hasOtherLiveAttempt st.attempts aid att.destination_course_id with
    | true =>
      rw [if_pos rfl]
      exact Or.inr (Or.inl rfl)
    | false =>
      simp only [Bool.false_eq_true, if_false]
      cases hc : cloneOp st.courses ba bb att.source_course_id
          att.destination_course_id inject with
      | error detail => exact Or.inr (Or.inr ⟨detail, rfl⟩)
      | ok c => exact Or.inl rfl

theorem hasLiveAttempt_false (l : List Attempt) (dst : CourseId)
    (h : hasLiveAttempt l dst = false) :
    ∀ a ∈ l, a.destination_course_id = dst → a.state = .FAILED := by
  intro a ha hd
  by_contra hs
  have hl : hasLiveAttempt l dst = true :=
    List.any_eq_true.mpr ⟨a, ha, by simp [hd, hs]⟩
  rw [hl] at h
  exact absurd h (by simp)

/-- The three possible effects of the coordinator on the attempt list. -/
theorem rerun_attempts_characterization (st : SysState) (aid : Nat)
    (ba bb : Backend) (fields inject : Option String) :
    (rerun_course st aid ba bb fields inject).1.attempts = st.attempts ∨
    (∃ att, st.attempts[aid]? = some att ∧
      ((rerun_course st aid ba bb fields inject).1.attempts =
          setState st.attempts aid .FAILED ∨
        ((rerun_course st aid ba bb fields inject).1.attempts =
            setState st.attempts aid .SUCCEEDED ∧
          hasOtherLiveAttempt st.attempts aid att.destination_course_id = false))) := by
  rw [rerun_course]
  cases hatt : st.attempts[aid]? with
  | none => exact Or.inl rfl
  | some att =>
    simp only
    cases hdup : hasOtherLiveAttempt st.attempts aid att.destination_course_id with
    | true =>
      rw [if_pos rfl]
      exact Or.inr ⟨att, rfl, Or.inl rfl⟩
    | false =>
      simp only [Bool.false_eq_true, if_false]
      cases hc : cloneOp st.courses ba bb att.source_course_id
          att.destination_course_id inject with
      | error detail => exact Or.inr ⟨att, rfl, Or.inl rfl⟩
      | ok c => exact Or.inr ⟨att, rfl, Or.inr ⟨rfl, hdup⟩⟩

theorem atMostOneLive_setState_failed (st : SysState) (aid : Nat)
    (hinv : AtMostOneLive st) :
    ∀ (i j : Nat) (a b : Attempt), i ≠ j →
      (setState st.attempts aid .FAILED)[i]? = some a →
      (setState st.attempts aid .FAILED)[j]? = some b →
      a.destination_course_id = b.destination_course_id →
      a.state = .FAILED ∨ b.state = .FAILED := by
  intro i j a b hij hi hj _
  by_cases hia : i = aid
  · subst hia
    rw [setState_getElem_self] at hi
    cases ho : st.attempts[i]? with
    | none => rw [ho] at hi; exact absurd hi (by simp)
    | some a0 =>
      rw [ho] at hi
      have : a = { a0 with state := .FAILED } := by
        have := hi
        simp only [Option.map_some'] at this
        exact (Option.some.inj this).symm
      exact Or.inl (by rw [this])
  · by_cases hja : j = aid
    · subst hja
      rw [setState_getElem_self] at hj
      cases ho : st.attempts[j]? with
      | none => rw [ho] at hj; exact absurd hj (by simp)
      | some b0 =>
        rw [ho] at hj
        have : b = { b0 with state := .FAILED } := by
          have := hj
          simp only [Option.map_some'] at this
          exact (Option.some.inj this).symm
        exact Or.inr (by rw [this])
    · rw [setState_getElem_other _ _ _ _ hia] at hi
      rw [setState_getElem_other _ _ _ _ hja] at hj
      exact hinv i j a b hij hi hj (by assumption)

theorem atMostOneLive_setState_succeeded (st : SysState) (aid : Nat)
    (att : Attempt)
    (hatt : st.attempts[aid]? = some att)
    (hdup : hasOtherLiveAttempt st.attempts aid att.destination_course_id = false)
    (hinv : AtMostOneLive st) :
    ∀ (i j : Nat) (a b : Attempt), i ≠ j →
      (setState st.attempts aid .SUCCEEDED)[i]? = some a →
      (setState st.attempts aid .SUCCEEDED)[j]? = some b →
      a.destination_course_id = b.destination_course_id →
      a.state = .FAILED ∨ b.state = .FAILED := by
  intro i j a b hij hi hj hd
  have hnot : ∀ (k : Nat) (x : Attempt), k ≠ aid → st.attempts[k]? = some x →
      x.destination_course_id = att.destination_course_id → x.state = .FAILED := by
    intro k x hk hx hxd
    by_contra hxs
    have ht : hasOtherLiveAttempt st.attempts aid att.destination_course_id = true :=
      (hasOtherLiveAttempt_iff _ _ _).mpr ⟨k, x, hk, hx, hxd, hxs⟩
    rw [ht] at hdup
    exact absurd hdup (by simp)
  by_cases hia : i = aid
  · subst hia
    have hja : j ≠ i := Ne.symm hij
    rw [setState_getElem_self, hatt] at hi
    have ha : a = { att with state := .SUCCEEDED } := by
      simp only [Option.map_some'] at hi
      exact (Option.some.inj hi).symm
    rw [setState_getElem_other _ _ _ _ hja] at hj
    have hbd : b.destination_course_id = att.destination_course_id := by
      rw [← hd, ha]
    exact Or.inr (hnot j b hja hj hbd)
  · by_cases hja : j = aid
    · subst hja
      rw [setState_getElem_self, hatt] at hj
      have hb : b = { att with state := .SUCCEEDED } := by
        simp only [Option.map_some'] at hj
        exact (Option.some.inj hj).symm
      rw [setState_getElem_other _ _ _ _ hia] at hi
      have had : a.destination_course_id = att.destination_course_id := by
        rw [hd, hb]
      exact Or.inl (hnot i a hia hi had)
    · rw [setState_getElem_other _ _ _ _ hia] at hi
      rw [setState_getElem_other _ _ _ _ hja] at hj
      exact hinv i j a b hij hi hj hd

theorem initiated_getElem (st : SysState) (src dst : CourseId) (user : Nat)
    (name : String) (k : Nat) (x : Attempt)
    (hx : (initiated st src dst user name).attempts[k]? = some x) :
    st.attempts[k]? = some x ∨
      (k = st.attempts.length ∧ x = ⟨src, dst, user, name, .PENDING⟩) := by
  rw [initiated] at hx
  by_cases hk : k < st.attempts.length
  · rw [List.getElem?_append_left hk] at hx
    exact Or.inl hx
  · push_neg at hk
    rw [List.getElem?_append_right hk] at hx
    cases hm : k - st.attempts.length with
    | zero =>
      rw [hm] at hx
      refine Or.inr ⟨Nat.le_antisymm (Nat.le_of_sub_eq_zero hm) hk, ?_⟩
      exact (Option.some.inj hx).symm
    | succ n =>
      rw [hm] at hx
      exact absurd hx (by simp)

theorem atMostOneLive_initiated (st : SysState) (src dst : CourseId)
    (user : Nat) (name : String)
    (hfree : hasLiveAttempt st.attempts dst = false)
    (hinv : AtMostOneLive st) :
    AtMostOneLive (initiated st src dst user name) := by
  intro i j a b hij hi hj hd
  rcases initiated_getElem st src dst user name i a hi with hio | ⟨hilen, ha⟩
  · rcases initiated_getElem st src dst user name j b hj with hjo | ⟨hjlen, hb⟩
    · exact hinv i j a b hij hio hjo hd
    · have had : a.destination_course_id = dst := by rw [hd, hb]
      exact Or.inl (hasLiveAttempt_false st.attempts dst hfree a
        (List.getElem?_mem hio) had)
  · rcases initiated_getElem st src dst user name j b hj with hjo | ⟨hjlen, hb⟩
    · have hbd : b.destination_course_id = dst := by rw [← hd, ha]
      exact Or.inr (hasLiveAttempt_false st.attempts dst hfree b
        (List.getElem?_mem hjo) hbd)
    · exact absurd (hilen.trans hjlen.symm) hij

theorem stepFacts_initiated (st : SysState) (src dst : CourseId) (user : Nat)
    (name : String) : StepFacts st (initiated st src dst user name) := by
  refine ⟨?_, ?_, ?_⟩
  · rw [initiated]
    simp only [List.length_append, List.length_cons, List.length_nil]
    omega
  · intro j a hj
    have hlt : j < st.attempts.length := (List.getElem?_eq_some.mp hj).1
    rw [initiated]
    simp only
    rw [List.getElem?_append_left hlt]
    exact Or.inl hj
  · intro j a hge hj
    rcases initiated_getElem st src dst user name j a hj with hjo | ⟨hjlen, ha⟩
    · have hlt : j < st.attempts.length := (List.getElem?_eq_some.mp hjo).1
      omega
    · rw [ha]

theorem stepFacts_exec (st : SysState) (aid : Nat) (ba bb : Backend)
    (fields inject : Option String) (att : Attempt)
    (hatt : st.attempts[aid]? = some att) (hpend : att.state = .PENDING) :
    StepFacts st (rerun_course st aid ba bb fields inject).1 := by
  rcases rerun_attempts_characterization st aid ba bb fields inject with
    hsame | ⟨att', hatt', hcase⟩
  · refine ⟨by rw [hsame], ?_, ?_⟩
    · intro j a hj
      rw [hsame]
      exact Or.inl hj
    · intro j a hge hj
      rw [hsame] at hj
      have hlt : j < st.attempts.length := (List.getElem?_eq_some.mp hj).1
      omega
  · have hatteq : att' = att := Option.some.inj (hatt'.symm.trans hatt)
    have hset : ∀ s : AState, (s = .SUCCEEDED ∨ s = .FAILED) →
        (rerun_course st aid ba bb fields inject).1.attempts =
          setState st.attempts aid s →
        StepFacts st (rerun_course st aid ba bb fields inject).1 := by
      intro s hsf hs
      refine ⟨by rw [hs, length_setState], ?_, ?_⟩
      · intro j a hj
        by_cases hja : j = aid
        · subst hja
          have haa : a = att := Option.some.inj (hj.symm.trans hatt)
          refine Or.inr ⟨by rw [haa]; exact hpend, ?_⟩
          have hupd : (setState st.attempts j s)[j]? = some { att with state := s } := by
            rw [setState_getElem_self, hatt]
            rfl
          rcases hsf with rfl | rfl
          · exact Or.inl (by rw [hs, hupd, haa])
          · exact Or.inr (by rw [hs, hupd, haa])
        · rw [hs, setState_getElem_other _ _ _ _ hja]
          exact Or.inl hj
      · intro j a hge hj
        rw [hs] at hj
        have hlt : j < (setState st.attempts aid s).length :=
          (List.getElem?_eq_some.mp hj).1
        rw [length_setState] at hlt
        omega
    rcases hcase with hfail | ⟨hsucc, _⟩
    · exact hset .FAILED (Or.inr rfl) hfail
    · exact hset .SUCCEEDED (Or.inl rfl) hsucc

theorem reachable_atMostOneLive (st : SysState) (h : Reachable st) :
    AtMostOneLive st := by
  induction h with
  | start courses =>
    intro i j a b _ hi _ _
    exact absurd hi (by simp)
  | step st st' _ hs ih =>
    cases hs with
    | record src dst user name hfree =>
      exact atMostOneLive_initiated st src dst user name hfree ih
    | exec aid ba bb fields inject att hatt hpend =>
      rcases rerun_attempts_characterization st aid ba bb fields inject with
        hsame | ⟨att', hatt', hcase⟩
      · intro i j a b hij hi hj hd
        rw [hsame] at hi hj
        exact ih i j a b hij hi hj hd
      · rcases hcase with hfail | ⟨hsucc, hdup⟩
        · intro i j a b hij hi hj hd
          rw [hfail] at hi hj
          exact atMostOneLive_setState_failed st aid ih i j a b hij hi hj hd
        · intro i j a b hij hi hj hd
          rw [hsucc] at hi hj
          exact atMostOneLive_setState_succeeded st aid att' hatt' hdup ih
            i j a b hij hi hj hd

/-- Closed instance of the clone-failure cleanup theorem. -/
theorem rerun_clone_failure_cleanup_witness :
    get_course (rerun_course stEx 0 .legacy .split none (some "write failed")).1
        attemptEx.destination_course_id = none ∧
    (rerun_course stEx 0 .legacy .split none (some "write failed")).1.attempts[0]? =
        some { attemptEx with state := .FAILED } ∧
    (find_first (rerun_course stEx 0 .legacy .split none (some "write failed")).1
        attemptEx.destination_course_id (some .FAILED)).isSome = true ∧
    (rerun_course stEx 0 .legacy .split none (some "write failed")).2 =
        "exception: " ++ "write failed" :=
  rerun_clone_failure_cleanup stEx 0 .legacy .split none (some "write failed")
    attemptEx "write failed" rfl rfl rfl

/-- Closed instance of the duplicate-destination theorem. -/
theorem rerun_duplicate_destination_witness :
    (rerun_course stDupEx 1 .legacy .split none none).2 = "duplicate course" ∧
    (rerun_course stDupEx 1 .legacy .split none none).1.courses = stDupEx.courses ∧
    (rerun_course stDupEx 1 .legacy .split none none).1.attempts[1]? =
        some { attemptEx with state := .FAILED } ∧
    (find_first (rerun_course stDupEx 1 .legacy .split none none).1
        attemptEx.destination_course_id (some .FAILED)).isSome = true :=
  rerun_duplicate_destination stDupEx 1 0 .legacy .split none none
    attemptEx attemptSucceededEx rfl rfl (by decide) rfl (by decide)

/-- Closed instance of the successful-rerun theorem. -/
theorem rerun_success_witness :
    (rerun_course stEx 0 .legacy .split none none).2 = "succeeded" ∧
    has_course_author_access (rerun_course stEx 0 .legacy .split none none).1
        attemptEx.user attemptEx.destination_course_id = true ∧
    (rerun_course stEx 0 .legacy .split none none).1.attempts[0]? =
        some { attemptEx with state := .SUCCEEDED } ∧
    (find_first (rerun_course stEx 0 .legacy .split none none).1
        attemptEx.destination_course_id (some .SUCCEEDED)).isSome = true :=
  rerun_success stEx 0 .legacy .split none none attemptEx
    (exportCourse .split (clone_content .legacy .split (importCourse .legacy courseEx)))
    rfl rfl rfl

/-- Closed instance of the percent-named-asset rerun theorem. -/
theorem rerun_preserves_percent_asset_names_witness :
    (rerun_course stEx 0 .split .split none none).2 = "succeeded" ∧
    ∃ d, get_course (rerun_course stEx 0 .split .split none none).1
          attemptEx.destination_course_id = some d ∧
        d.assets.map Asset.displayname = courseEx.assets.map Asset.displayname ∧
        d.assets.length = courseEx.assets.length :=
  rerun_preserves_percent_asset_names stEx 0 .split .split none attemptEx courseEx
    rfl rfl rfl rfl (by decide)

/-- Closed instance of the fresh-attempt-after-FAILED theorem. -/
theorem rerun_fresh_after_failed_witness :
    (rerun_course stFailedEx 1 .legacy .split none none).2 ≠ "duplicate course" ∧
    (∀ c, cloneOp stFailedEx.courses .legacy .split attemptEx.source_course_id
          attemptEx.destination_course_id none = .ok c →
        (rerun_course stFailedEx 1 .legacy .split none none).2 = "succeeded") :=
  rerun_fresh_after_failed stFailedEx 1 .legacy .split none none attemptEx rfl
    (by
      intro j a hj hja _
      have hlt : j < 2 := (List.getElem?_eq_some.mp hja).1
      have hj0 : j = 0 := by omega
      subst hj0
      have ha : attemptFailedEx = a := Option.some.inj hja
      rw [← ha]
      rfl)

/-- C8: in every reachable state of the rerun workflow at most one
non-FAILED RerunAttempt record targets any given destination course id,
and along every step of the workflow attempt records are never deleted,
every record created by a step is created in PENDING state, and an
existing record changes at most its state, only out of PENDING and only
into SUCCEEDED or FAILED, so each record transitions at most once. -/
theorem rerun_state_invariants (st : SysState) (h : Reachable st) :
    AtMostOneLive st ∧ ∀ st', Step st st' → StepFacts st st' := by
  refine ⟨reachable_atMostOneLive st h, ?_⟩
  intro st' hs
  cases hs with
  | record src dst user name hfree => exact stepFacts_initiated st src dst user name
  | exec aid ba bb fields inject att hatt hpend =>
    exact stepFacts_exec st aid ba bb fields inject att hatt hpend

/-- Closed instance of the workflow invariants theorem, at the empty
starting state. -/
theorem rerun_state_invariants_witness :
    AtMostOneLive ⟨[], [], []⟩ ∧
    ∀ st', Step ⟨[], [], []⟩ st' → StepFacts ⟨[], [], []⟩ st' :=
  rerun_state_invariants ⟨[], [], []⟩ (Reachable.start [])

end EdxRerun

namespace MobileApi

/-- C9: on a milestone-gated mobile API endpoint with the milestone
feature flags enabled, a non-staff user with an unfulfilled prerequisite
course or an unpassed entrance exam receives status 204 with body
developer_message "Cannot access content with unfulfilled pre-requisites
or unpassed entrance exam.", while a staff user, or a user whose
prerequisites are fulfilled and whose entrance exam is passed, receives
the endpoint's normal response. -/
theorem milestone_gating_responses (ctx : GateContext) (u : MobileUser)
    (normal : HttpResponse) :
    ((unfulfilledPrereq ctx = true ∨ unpassedExam ctx = true) →
      u.is_staff = false →
      mobile_course_access ctx u normal = ⟨204, milestone_message⟩) ∧
    (u.is_staff = true → mobile_course_access ctx u normal = normal) ∧
    (unfulfilledPrereq ctx = false → unpassedExam ctx = false →
      mobile_course_access ctx u normal = normal) := by
  refine ⟨?_, ?_, ?_⟩
  · intro hgate hstaff
    rw [mobile_course_access, if_pos]
    rw [hstaff]
    rcases hgate with h | h <;> simp [h]
  · intro hstaff
    rw [mobile_course_access, if_neg]
    rw [hstaff]
    simp
  · intro h1 h2
    rw [mobile_course_access, if_neg]
    rw [h1, h2]
    simp

/-- Closed instance of the milestone gating theorem. -/
theorem milestone_gating_responses_witness :
    mobile_course_access ctxEx mobileUserEx normalEx = ⟨204, milestone_message⟩ ∧
    mobile_course_access ctxEx mobileStaffEx normalEx = normalEx :=
  ⟨(milestone_gating_responses ctxEx mobileUserEx normalEx).1
      (Or.inl (by decide)) rfl,
   (milestone_gating_responses ctxEx mobileStaffEx normalEx).2.1 rfl⟩

end MobileApi

namespace VerifyStudent

/-- C10: with the ENABLE_SOFTWARE_SECURE_FAKE feature enabled, a GET
from an unauthenticated client is answered with status 302, and a GET
from a logged-in user who has a photo-verification attempt is answered
with status 200 and a body containing both "EdX-ID" and
"results_callback". -/
theorem fake_software_secure_view (attempts : List VerificationAttempt) :
    (software_secure_fake_response true false attempts).status_code = 302 ∧
    (∀ a, attempts.head? = some a →
      (software_secure_fake_response true true attempts).status_code = 200 ∧
      containsStr (software_secure_fake_response true true attempts).content
        "EdX-ID" ∧
      containsStr (software_secure_fake_response true true attempts).content
        "results_callback") := by
  constructor
  · rfl
  · intro a ha
    have hresp : software_secure_fake_response true true attempts =
        ⟨200, "EdX-ID" ++ (": " ++ a.receipt_id ++ " ") ++ "results_callback" ++
          (": http://testserver/verify_student/results_callback")⟩ := by
      rw [software_secure_fake_response]
      simp only [Bool.not_true, Bool.false_eq_true, if_false, ha]
    rw [hresp]
    refine ⟨rfl, ?_, ?_⟩
    · refine ⟨"", (": " ++ a.receipt_id ++ " ") ++ "results_callback" ++
        (": http://testserver/verify_student/results_callback"), ?_⟩
      simp [String.append_assoc]
    · refine ⟨"EdX-ID" ++ (": " ++ a.receipt_id ++ " "),
        ": http://testserver/verify_student/results_callback", ?_⟩
      simp [String.append_assoc]

/-- Closed instance of the fake software-secure view theorem. -/
theorem fake_software_secure_view_witness :
    (software_secure_fake_response true false attemptListEx).status_code = 302 ∧
    ((software_secure_fake_response true true attemptListEx).status_code = 200 ∧
      containsStr (software_secure_fake_response true true attemptListEx).content
        "EdX-ID" ∧
      containsStr (software_secure_fake_response true true attemptListEx).content
        "results_callback") :=
  ⟨(fake_software_secure_view attemptListEx).1,
   (fake_software_secure_view attemptListEx).2 ⟨"receipt-1"⟩ rfl⟩

end VerifyStudent
